import Mathlib

/-!
Shallow embedding of the backward taint-propagation engine of
`crash-blamer/lib/Analysis/TaintAnalysis.cpp` (llvm-crash-analyzer).

The engine's data types (`TaintInfo`, `DestSourcePair`) are declared in
`Analysis/TaintAnalysis.h`, which is not part of the analysed sources; their
fields are reconstructed from their uses in the `.cpp` file and from the
specification's data model (optional operand pointers, optional signed
displacements, a resolved flag and a resolved 64-bit address).

Machine integers are modelled as `Nat`/`Int` with explicit reduction
modulo `2 ^ 64` where the C++ performs `uint64_t` arithmetic.  Paths on
which the C++ program has no defined behaviour (a null-pointer dereference,
or the `llvm_unreachable` in `removeFromTaintList`) are made explicit with
an `Except Fault` result.
-/

/-- A machine operand as consumed by the engine: either a register operand
(identified by its register number) or an immediate/constant operand.
`llvm::MachineOperand` is external; only the queries `isImm`, `getReg` are
used by the analysed code. -/
inductive Operand where
  | reg (r : Nat)
  | imm (val : Int)
deriving DecidableEq

/-- `MachineOperand::isImm()`. -/
def Operand.isImm : Operand → Bool
  | .imm _ => true
  | .reg _ => false

/-- `MachineOperand::getReg()`.  In LLVM this asserts `isReg()`; the engine
only calls it on register operands, so the value returned on an immediate
is never observed on a defined path. -/
def Operand.getReg : Operand → Nat
  | .reg r => r
  | .imm _ => 0

/-- `Ti.Op->getReg()` through a possibly-null operand pointer.  The engine
only dereferences operands it has checked to be non-null; the `none` value
here is never observed on a defined path. -/
def opGetReg : Option Operand → Nat
  | some op => op.getReg
  | none => 0

/-- `Ti.Op->isImm()` through a possibly-null operand pointer. -/
def opIsImm : Option Operand → Bool
  | some op => op.isImm
  | none => false

/-- Modelled from the spec: the Taint Descriptor declared in
`Analysis/TaintAnalysis.h` — the Operand Reference (a nullable pointer), an
optional signed displacement, a resolved flag and the resolved concrete
address (valid only when resolved).  Field names follow the uses in the
`.cpp` file. -/
structure TaintInfo where
  Op : Option Operand
  Offset : Option Int
  IsConcreteMemory : Bool := false
  ConcreteMemoryAddress : Nat := 0
deriving DecidableEq

/-- Modelled from the spec: accessor `TaintInfo::IsTaintMemAddr()` from the
header — the resolved flag. -/
def TaintInfo.IsTaintMemAddr (T : TaintInfo) : Bool := T.IsConcreteMemory

/-- Modelled from the spec: accessor `TaintInfo::GetTaintMemAddr()` from the
header — the resolved concrete address. -/
def TaintInfo.GetTaintMemAddr (T : TaintInfo) : Nat := T.ConcreteMemoryAddress

/-- `llvm::crash_blamer::operator==(const TaintInfo &, const TaintInfo &)`:
descriptors with different resolved flags are unequal; two resolved
descriptors compare by address; otherwise the underlying register numbers
are compared. -/
def taintEq (T1 T2 : TaintInfo) : Bool :=
  if T1.IsTaintMemAddr ≠ T2.IsTaintMemAddr then false
  else if T1.IsTaintMemAddr && T2.IsTaintMemAddr then
    decide (T1.GetTaintMemAddr = T2.GetTaintMemAddr)
  else if opGetReg T1.Op ≠ opGetReg T2.Op then false
  else true

/-- The register context a frame's `MachineFunction` supplies:
`regName r` models `TRI->getRegAsmName(r).lower()` and
`regValue name` models `MF->getRegValueFromCrash(name)` (the captured
hexadecimal value string, `""` when absent). -/
structure RegCtx where
  regName : Nat → String
  regValue : String → String

/-- Value of one hexadecimal digit, `none` for a non-digit. -/
def hexDigitVal (c : Char) : Option Nat :=
  if '0' ≤ c ∧ c ≤ '9' then some (c.toNat - '0'.toNat)
  else if 'a' ≤ c ∧ c ≤ 'f' then some (c.toNat - 'a'.toNat + 10)
  else if 'A' ≤ c ∧ c ≤ 'F' then some (c.toNat - 'A'.toNat + 10)
  else none

/-- Accumulate the leading hexadecimal digits of a character list. -/
def hexListVal : List Char → Nat → Nat
  | [], acc => acc
  | c :: cs, acc =>
    match hexDigitVal c with
    | some d => hexListVal cs (acc * 16 + d)
    | none => acc

/-- Modelled from the spec: "parse the hexadecimal value" — the
`std::stringstream` hex extraction of the `.cpp` file (external library
code): an optional `0x`/`0X` base marker followed by the leading run of
hexadecimal digits, clamped to the largest `uint64_t` on overflow. -/
def parseHex (s : String) : Nat :=
  let cs :=
    match s.toList with
    | '0' :: 'x' :: rest => rest
    | '0' :: 'X' :: rest => rest
    | cs => cs
  min (hexListVal cs 0) (2 ^ 64 - 1)

/-- `uint64_t` addition of a signed 64-bit displacement:
`RealAddr += *Ti.Offset` wraps modulo `2 ^ 64`. -/
def addWrap64 (a : Nat) (d : Int) : Nat :=
  (((a : Int) + d) % (2 ^ 64 : Int)).toNat

/-- `TaintAnalysis::calculateMemAddr`: attempt to resolve a descriptor that
carries a displacement to a concrete address.  Immediate operands and
descriptors without a displacement are left untouched; otherwise the
descriptor resolves exactly when the base register's captured value string
is non-empty and the (lower-cased) register name is `rsp` or `rbp`, the
address being the parsed value plus the displacement. -/
def calculateMemAddr (ctx : RegCtx) (Ti : TaintInfo) : TaintInfo :=
  match Ti.Op with
  | none => Ti
  | some op =>
    if op.isImm = true ∨ Ti.Offset = none then Ti
    else
      let RegName := ctx.regName op.getReg
      let RegValue := ctx.regValue RegName
      if RegValue = "" ∨ (RegName ≠ "rsp" ∧ RegName ≠ "rbp") then
        { Ti with IsConcreteMemory := false }
      else
        { Ti with IsConcreteMemory := true,
                  ConcreteMemoryAddress :=
                    addWrap64 (parseHex RegValue) (Ti.Offset.getD 0) }

/-- `TaintAnalysis::addToTaintList`: silently reject a null or immediate
operand, otherwise append. -/
def addToTaintList (Ti : TaintInfo) (TL : List TaintInfo) : List TaintInfo :=
  match Ti.Op with
  | none => TL
  | some op => if op.isImm then TL else TL ++ [Ti]

/-- The paths on which the C++ engine has no defined behaviour. -/
inductive Fault where
  | nullDeref
  | unreachableRemove
deriving DecidableEq

/-- `TaintAnalysis::removeFromTaintList`: erase the first element equal to
the argument; `llvm_unreachable` when no element matches. -/
def removeFromTaintList (Op : TaintInfo) : List TaintInfo → Except Fault (List TaintInfo)
  | [] => .error .unreachableRemove
  | T :: rest =>
    if taintEq T Op then .ok rest
    else
      match removeFromTaintList Op rest with
      | .ok rest2 => .ok (T :: rest2)
      | .error e => .error e

/-- `TaintAnalysis::isTainted`: return the first stored descriptor equal to
the argument, or the empty sentinel (null operand pointer, displacement 0). -/
def isTainted (TL : List TaintInfo) (Op : TaintInfo) : TaintInfo :=
  match TL.find? (fun T => taintEq T Op) with
  | some T => T
  | none => { Op := none, Offset := some 0 }

/-- Modelled from the spec: the Destination/Source tuple declared in the
header — an optional destination, first source and second source operand,
each with an optional signed displacement. -/
structure DestSourcePair where
  Destination : Option Operand
  DestOffset : Option Int
  Source : Option Operand
  SrcOffset : Option Int
  Source2 : Option Operand
  Src2Offset : Option Int
deriving DecidableEq

/-- The repeated construction pattern of the `.cpp` file:
`Ti.Op = op; Ti.Offset = off; if (Ti.Offset) calculateMemAddr(Ti);`. -/
def mkTaintInfo (ctx : RegCtx) (op : Option Operand) (off : Option Int) : TaintInfo :=
  let Ti : TaintInfo := { Op := op, Offset := off }
  if off.isSome then calculateMemAddr ctx Ti else Ti

/-- `TaintAnalysis::propagateTaint`: the per-instruction transition.
`.ok (true, TL)` is the C++ `return true` (taint propagated / continue),
`.ok (false, TL)` the C++ `return false` (taint terminated).  The
dereference `DS.Source->isImm()` on a null first source is a fault. -/
def propagateTaint (ctx : RegCtx) (DS : DestSourcePair) (TL : List TaintInfo) :
    Except Fault (Bool × List TaintInfo) :=
  if TL.isEmpty then .ok (false, TL)
  else
    let SrcTi := mkTaintInfo ctx DS.Source DS.SrcOffset
    let DestTi := mkTaintInfo ctx DS.Destination DS.DestOffset
    match DestTi.Op with
    | none => .ok (true, TL)
    | some _ =>
      match (isTainted TL DestTi).Op with
      | none => .ok (true, TL)
      | some _ =>
        match DS.Source with
        | none => .error .nullDeref
        | some src =>
          if src.isImm then
            match removeFromTaintList DestTi TL with
            | .ok TL2 => .ok (false, TL2)
            | .error e => .error e
          else
            match removeFromTaintList DestTi (addToTaintList SrcTi TL) with
            | .ok TL2 => .ok (true, TL2)
            | .error e => .error e

/-- `TaintAnalysis::startTaint`: seed the taint set at the crash-flagged
instruction when it is still empty; otherwise (a later, outer frame) defer
to `propagateTaint` when a destination operand is present. -/
def startTaint (ctx : RegCtx) (DS : DestSourcePair) (TL : List TaintInfo) :
    Except Fault (List TaintInfo) :=
  let SrcTi := mkTaintInfo ctx DS.Source DS.SrcOffset
  let DestTi := mkTaintInfo ctx DS.Destination DS.DestOffset
  let Src2Ti := mkTaintInfo ctx DS.Source2 DS.Src2Offset
  if TL.isEmpty then
    let TL1 := if DestTi.Op.isSome ∧ DestTi.Offset.isSome then addToTaintList DestTi TL else TL
    let TL2 := if SrcTi.Op.isSome then addToTaintList SrcTi TL1 else TL1
    let TL3 := if Src2Ti.Op.isSome then addToTaintList Src2Ti TL2 else TL2
    .ok TL3
  else
    if DestTi.Op.isSome then
      match propagateTaint ctx DS TL with
      | .ok (_, TL2) => .ok TL2
      | .error e => .error e
    else .ok TL

/-- One lifted machine instruction, as queried by the frame scanner:
the crash-start flag (`MI.getFlag(MachineInstr::CrashStart)`), the
classification predicates `isCall`/`isBranch`/`isPushPop`, and the
destination/source tuple `TII->getDestAndSrc(MI)` (`none` when the
extractor yields nothing).  `id` models the instruction's identity, used
only to state which instructions a scan processes. -/
structure MachineInstr where
  id : Nat
  crashStart : Bool
  isCall : Bool
  isBranch : Bool
  isPushPop : Bool
  destSrc : Option DestSourcePair

/-- One frame's `MachineFunction`: its basic blocks in program order (each
a list of instructions in program order) together with the frame's register
context (`getSubtarget()` register names and the crash-captured register
values).  The `MachineLocTracking` forward pre-pass of `runOnBlameMF` is an
external collaborator; the blocks here are its output. -/
structure MachineFunction where
  blocks : List (List MachineInstr)
  ctx : RegCtx

/-- The local state of `TaintAnalysis::runOnBlameMF` while scanning one
frame: the `CrashSequenceStarted` and `Result` flags, the member taint
list, and the trace of ids of instructions on which `propagateTaint` was
invoked from the scanner loop (in processing order). -/
structure ScanState where
  crashSequenceStarted : Bool
  result : Bool
  TL : List TaintInfo
  trace : List Nat

/-- Outcome of one loop iteration of `runOnBlameMF`: `ret b` is a
`return b` out of the whole function, `brk` the `break` out of the current
basic block's loop, `cont` a `continue`/fallthrough to the next
instruction. -/
inductive StepRes where
  | ret (b : Bool)
  | brk
  | cont

/-- The body of the inner instruction loop of `runOnBlameMF`, for one
instruction (already in backward scan order). -/
def scanInstr (ctx : RegCtx) (st : ScanState) (MI : MachineInstr) :
    Except Fault (StepRes × ScanState) :=
  if MI.crashStart then
    let st := { st with crashSequenceStarted := true }
    match MI.destSrc with
    | none => .ok (.cont, st)
    | some DS =>
      match startTaint ctx DS st.TL with
      | .ok TL2 => .ok (.cont, { st with TL := TL2 })
      | .error e => .error e
  else if !st.crashSequenceStarted then .ok (.cont, st)
  else if MI.isCall || MI.isBranch then .ok (.cont, st)
  else if MI.isPushPop then .ok (.brk, st)
  else
    match MI.destSrc with
    | none => .ok (.cont, st)
    | some DS =>
      match propagateTaint ctx DS st.TL with
      | .error e => .error e
      | .ok (TaintResult, TL2) =>
        let st := { st with TL := TL2,
                            result := if !TaintResult then true else st.result,
                            trace := st.trace ++ [MI.id] }
        if !TaintResult && TL2.isEmpty then .ok (.ret true, st)
        else .ok (.cont, st)

/-- The inner loop of `runOnBlameMF` over one basic block's instructions in
backward scan order: `some b` is an early `return b` out of the whole
function; `none` means the block was left normally (exhausted or `break`). -/
def scanInstrs (ctx : RegCtx) (st : ScanState) :
    List MachineInstr → Except Fault (Option Bool × ScanState)
  | [] => .ok (none, st)
  | MI :: rest =>
    match scanInstr ctx st MI with
    | .error e => .error e
    | .ok (.ret b, st2) => .ok (some b, st2)
    | .ok (.brk, st2) => .ok (none, st2)
    | .ok (.cont, st2) => scanInstrs ctx st2 rest

/-- The outer loop of `runOnBlameMF` over the basic blocks in backward scan
order. -/
def scanBlocks (ctx : RegCtx) (st : ScanState) :
    List (List MachineInstr) → Except Fault (Option Bool × ScanState)
  | [] => .ok (none, st)
  | B :: rest =>
    match scanInstrs ctx st B.reverse with
    | .error e => .error e
    | .ok (some b, st2) => .ok (some b, st2)
    | .ok (none, st2) => scanBlocks ctx st2 rest

/-- `TaintAnalysis::runOnBlameMF`: backward scan of one frame, threading the
member taint list.  Returns the function's boolean result, the taint list
afterwards, and the trace of instruction ids fed to `propagateTaint` from
the scanner loop. -/
def runOnBlameMF (MF : MachineFunction) (TL : List TaintInfo) :
    Except Fault (Bool × List TaintInfo × List Nat) :=
  match scanBlocks MF.ctx
      { crashSequenceStarted := false, result := false, TL := TL, trace := [] }
      MF.blocks.reverse with
  | .error e => .error e
  | .ok (some b, st) => .ok (b, st.TL, st.trace)
  | .ok (none, st) => .ok (st.result, st.TL, st.trace)

/-- One entry of the blame module: a function name and, when decompilation
to MIR succeeded, its `MachineFunction`. -/
structure BlameFunction where
  Name : String
  MF : Option MachineFunction

/-- `BF.Name.startswith("_")` from the source, embedded as a
first-character test. -/
def startsWithUnderscore (s : String) : Bool :=
  match s.toList with
  | [] => false
  | c :: _ => c == '_'

/-- The loop of `TaintAnalysis::runOnBlameModule`, with the
`AnalysisStarted` and `Result` flags and the member taint list explicit.
Returns the boolean result, the names of the frames skipped by the
leading-underscore rule, and the names of the frames on which
`runOnBlameMF` was invoked (in order). -/
def runOnBlameModuleAux (started result : Bool) (TL : List TaintInfo) :
    List BlameFunction → Except Fault (Bool × List String × List String)
  | [] => .ok (result, [], [])
  | BF :: rest =>
    if !started && startsWithUnderscore BF.Name then
      match runOnBlameModuleAux started result TL rest with
      | .ok (b, sk, sc) => .ok (b, BF.Name :: sk, sc)
      | .error e => .error e
    else
      match BF.MF with
      | none => .ok (result, [], [])
      | some MF =>
        match runOnBlameMF MF TL with
        | .error e => .error e
        | .ok (r, TL2, _) =>
          if r then
            if TL2.isEmpty then .ok (true, [], [BF.Name])
            else
              match runOnBlameModuleAux true true TL2 rest with
              | .ok (b, sk, sc) => .ok (b, sk, BF.Name :: sc)
              | .error e => .error e
          else
            match runOnBlameModuleAux true result TL2 rest with
            | .ok (b, sk, sc) => .ok (b, sk, BF.Name :: sc)
            | .error e => .error e

/-- `TaintAnalysis::runOnBlameModule`: the walk starts with both flags false
and an empty taint list (the analysis object is freshly constructed). -/
def runOnBlameModule (BM : List BlameFunction) :
    Except Fault (Bool × List String × List String) :=
  runOnBlameModuleAux false false [] BM

/-! ### Concrete data used by the example runs below -/

/-- A register context in which no register value was captured and every
register prints as `rax` (an untrusted base register). -/
def ctx0 : RegCtx := { regName := fun _ => "rax", regValue := fun _ => "" }

/-- A register context in which every register prints as `rsp` and the
captured value string is the hexadecimal `1f`. -/
def ctxW : RegCtx := { regName := fun _ => "rsp", regValue := fun _ => "1f" }

/-- Tuple of a crash instruction that dereferences memory at register 1
with displacement 0 and has no source operands. -/
def dsCrash : DestSourcePair :=
  { Destination := some (.reg 1), DestOffset := some 0,
    Source := none, SrcOffset := none, Source2 := none, Src2Offset := none }

/-- Tuple of a crash instruction `[reg1 + 0] <- reg2`. -/
def dsCrash2 : DestSourcePair :=
  { Destination := some (.reg 1), DestOffset := some 0,
    Source := some (.reg 2), SrcOffset := none, Source2 := none, Src2Offset := none }

/-- Tuple of `reg2 <- 0` (constant source). -/
def dsA : DestSourcePair :=
  { Destination := some (.reg 2), DestOffset := none,
    Source := some (.imm 0), SrcOffset := none, Source2 := none, Src2Offset := none }

/-- Tuple of `reg5 <- reg6`. -/
def dsB : DestSourcePair :=
  { Destination := some (.reg 5), DestOffset := none,
    Source := some (.reg 6), SrcOffset := none, Source2 := none, Src2Offset := none }

/-- Tuple of `reg9 <- reg10`. -/
def dsEarly : DestSourcePair :=
  { Destination := some (.reg 9), DestOffset := none,
    Source := some (.reg 10), SrcOffset := none, Source2 := none, Src2Offset := none }

/-- Tuple with a destination, a destination displacement and a first source
that are all immediates. -/
def dsAllImm : DestSourcePair :=
  { Destination := some (.imm 7), DestOffset := some 4,
    Source := some (.imm 5), SrcOffset := none, Source2 := none, Src2Offset := none }

/-- Tuple whose destination is a plain register and whose first source is
absent. -/
def dsNoSrc : DestSourcePair :=
  { Destination := some (.reg 2), DestOffset := none,
    Source := none, SrcOffset := none, Source2 := none, Src2Offset := none }

/-- The crash-flagged instruction of the example frames. -/
def iCrash : MachineInstr :=
  { id := 1, crashStart := true, isCall := false, isBranch := false,
    isPushPop := false, destSrc := some dsCrash }

/-- Crash-flagged instruction carrying the tuple `[reg1 + 0] <- reg2`. -/
def iCrash2 : MachineInstr :=
  { id := 50, crashStart := true, isCall := false, isBranch := false,
    isPushPop := false, destSrc := some dsCrash2 }

/-- A push/pop (frame-establishment boundary) instruction. -/
def iPP : MachineInstr :=
  { id := 2, crashStart := false, isCall := false, isBranch := false,
    isPushPop := true, destSrc := none }

/-- Instruction `reg9 <- reg10`, placed in an earlier basic block. -/
def iEarly : MachineInstr :=
  { id := 7, crashStart := false, isCall := false, isBranch := false,
    isPushPop := false, destSrc := some dsEarly }

/-- Instruction `reg2 <- 0`. -/
def iA : MachineInstr :=
  { id := 100, crashStart := false, isCall := false, isBranch := false,
    isPushPop := false, destSrc := some dsA }

/-- Instruction `reg5 <- reg6`. -/
def iB : MachineInstr :=
  { id := 101, crashStart := false, isCall := false, isBranch := false,
    isPushPop := false, destSrc := some dsB }

/-- A frame with two basic blocks: the earlier block holds instruction 7,
the later block holds the push/pop boundary followed by the crash-flagged
instruction. -/
def MF0 : MachineFunction := { blocks := [[iEarly], [iPP, iCrash]], ctx := ctx0 }

/-- A single-block frame whose backward scan order is the crash-flagged
instruction, then `reg2 <- 0`, then `reg5 <- reg6`. -/
def MF1 : MachineFunction := { blocks := [[iB, iA, iCrash2]], ctx := ctx0 }

/-- A frame with no instructions. -/
def MFempty : MachineFunction := { blocks := [], ctx := ctx0 }

/-- The unresolved memory descriptor for register 1 with displacement 0, as
seeded by `startTaint` on `dsCrash`/`dsCrash2` under `ctx0`. -/
def tiReg1 : TaintInfo := { Op := some (.reg 1), Offset := some 0 }

/-- The register descriptor for register 2. -/
def tiReg2 : TaintInfo := { Op := some (.reg 2), Offset := none }

/-- Example module: two leading runtime-startup frames, then `main`, then a
frame whose name also begins with an underscore. -/
def modC8 : List BlameFunction :=
  [ { Name := "_start", MF := some MFempty },
    { Name := "__libc_start_main", MF := some MFempty },
    { Name := "main", MF := some MFempty },
    { Name := "_after", MF := some MFempty } ]

/-- Scanner state (crash sequence already started) holding the two
descriptors seeded by the crash instruction of `MF1`. -/
def stC4 : ScanState :=
  { crashSequenceStarted := true, result := false, TL := [tiReg1, tiReg2], trace := [] }

/-- Scanner state (crash sequence already started) holding `tiReg1`. -/
def stC3 : ScanState :=
  { crashSequenceStarted := true, result := false, TL := [tiReg1], trace := [] }

/-! ### Helper lemmas -/

theorem calculateMemAddr_Op (ctx : RegCtx) (Ti : TaintInfo) :
    (calculateMemAddr ctx Ti).Op = Ti.Op := by
  obtain ⟨o, off, c, a⟩ := Ti
  cases o with
  | none => rfl
  | some op =>
    simp only [calculateMemAddr]
    split
    · rfl
    · split <;> rfl

theorem calculateMemAddr_Offset (ctx : RegCtx) (Ti : TaintInfo) :
    (calculateMemAddr ctx Ti).Offset = Ti.Offset := by
  obtain ⟨o, off, c, a⟩ := Ti
  cases o with
  | none => rfl
  | some op =>
    simp only [calculateMemAddr]
    split
    · rfl
    · split <;> rfl

theorem mkTaintInfo_Op (ctx : RegCtx) (op : Option Operand) (off : Option Int) :
    (mkTaintInfo ctx op off).Op = op := by
  unfold mkTaintInfo
  split
  · exact calculateMemAddr_Op ..
  · rfl

theorem mkTaintInfo_Offset (ctx : RegCtx) (op : Option Operand) (off : Option Int) :
    (mkTaintInfo ctx op off).Offset = off := by
  unfold mkTaintInfo
  split
  · exact calculateMemAddr_Offset ..
  · rfl

theorem removeFromTaintList_of_find? (x t : TaintInfo) :
    ∀ TL : List TaintInfo, TL.find? (fun T => taintEq T x) = some t →
      ∃ TL2, removeFromTaintList x TL = .ok TL2 ∧ TL2.length + 1 = TL.length := by
  intro TL
  induction TL with
  | nil => intro h; simp at h
  | cons a rest ih =>
    intro h
    by_cases hpa : taintEq a x
    · exact ⟨rest, by simp [removeFromTaintList, hpa], by simp⟩
    · rw [List.find?_cons_of_neg _ (by simp [hpa])] at h
      obtain ⟨TL2, h1, h2⟩ := ih h
      exact ⟨a :: TL2, by simp [removeFromTaintList, hpa, h1], by simp [← h2]⟩

theorem find?_append_of_some {α : Type} (p : α → Bool) (l1 l2 : List α) (t : α)
    (h : l1.find? p = some t) : (l1 ++ l2).find? p = some t := by
  induction l1 with
  | nil => simp at h
  | cons a rest ih =>
    by_cases hpa : p a
    · rw [List.find?_cons_of_pos _ hpa] at h
      simpa [List.find?_cons_of_pos _ hpa] using h
    · rw [List.find?_cons_of_neg _ (by simpa using hpa)] at h
      simpa [List.find?_cons_of_neg _ (by simpa using hpa)] using ih h

theorem isTainted_eq_of_find? (TL : List TaintInfo) (x t : TaintInfo)
    (h : TL.find? (fun T => taintEq T x) = some t) : isTainted TL x = t := by
  unfold isTainted
  rw [h]

theorem isTainted_found (TL : List TaintInfo) (x : TaintInfo)
    (h : (isTainted TL x).Op ≠ none) :
    ∃ t, TL.find? (fun T => taintEq T x) = some t ∧ isTainted TL x = t := by
  unfold isTainted at h ⊢
  cases hf : TL.find? (fun T => taintEq T x) with
  | some t => exact ⟨t, rfl, rfl⟩
  | none => rw [hf] at h; simp at h

theorem addToTaintList_eq (Ti : TaintInfo) (TL : List TaintInfo) :
    addToTaintList Ti TL =
      TL ++ (if Ti.Op.isSome ∧ opIsImm Ti.Op = false then [Ti] else []) := by
  cases h : Ti.Op with
  | none => simp [addToTaintList, h, opIsImm]
  | some op => cases him : op.isImm <;> simp [addToTaintList, h, opIsImm, him]

theorem propagateTaint_no_dest (ctx : RegCtx) (DS : DestSourcePair)
    (TL : List TaintInfo) (hne : TL ≠ []) (hdest : DS.Destination = none) :
    propagateTaint ctx DS TL = .ok (true, TL) := by
  have hE : TL.isEmpty = false := by
    cases TL with
    | nil => exact absurd rfl hne
    | cons a t => rfl
  simp only [propagateTaint, hE, Bool.false_eq_true, if_false, hdest, mkTaintInfo_Op]

/-! ### Claim theorems -/

/-- Claim C1, counterexample: two Taint Descriptors over the same register
(number 3), of which exactly one is resolved to a concrete address.  The
claim predicts the membership-equality test returns true (register
identifiers are equal, at least one side is unresolved); the code's first
check compares the resolved flags and returns false. -/
theorem taintEq_mixed_resolution_cex :
    taintEq
      { Op := some (.reg 3), Offset := some 8, IsConcreteMemory := true,
        ConcreteMemoryAddress := 100 }
      { Op := some (.reg 3), Offset := none } = false ∧
    TaintInfo.IsTaintMemAddr
      { Op := some (.reg 3), Offset := some 8, IsConcreteMemory := true,
        ConcreteMemoryAddress := 100 } = true ∧
    TaintInfo.IsTaintMemAddr { Op := some (.reg 3), Offset := none } = false ∧
    opGetReg (TaintInfo.Op
      { Op := some (.reg 3), Offset := some 8, IsConcreteMemory := true,
        ConcreteMemoryAddress := 100 }) =
      opGetReg (TaintInfo.Op { Op := some (.reg 3), Offset := none }) :=
  ⟨rfl, rfl, rfl, rfl⟩

/-- Claim C1, amended: when both Taint Descriptors are unresolved, the
membership-equality test returns true iff the underlying register
identifiers of their Operand References are equal, regardless of
displacement values; when exactly one of the two is resolved, the test
returns false regardless of the registers. -/
theorem taintEq_unresolved (T1 T2 : TaintInfo) :
    (T1.IsTaintMemAddr = false → T2.IsTaintMemAddr = false →
      (taintEq T1 T2 = true ↔ opGetReg T1.Op = opGetReg T2.Op)) ∧
    (T1.IsTaintMemAddr ≠ T2.IsTaintMemAddr → taintEq T1 T2 = false) := by
  constructor
  · intro h1 h2
    simp only [taintEq, h1, h2]
    by_cases h : opGetReg T1.Op = opGetReg T2.Op <;> simp [h]
  · intro h
    simp only [taintEq, if_pos h]

/-- Witness for `taintEq_unresolved`: two unresolved descriptors over
register 4 with different displacements compare equal. -/
theorem taintEq_unresolved_witness :
    taintEq { Op := some (.reg 4), Offset := some 16 }
            { Op := some (.reg 4), Offset := none } = true :=
  ((taintEq_unresolved
    { Op := some (.reg 4), Offset := some 16 }
    { Op := some (.reg 4), Offset := none }).1 rfl rfl).mpr rfl

/-- Claim C7: when both Taint Descriptors are resolved to concrete memory
addresses, the membership-equality test returns true iff the resolved
addresses are equal, regardless of the originating register identities of
their Operand References. -/
theorem taintEq_resolved (T1 T2 : TaintInfo)
    (h1 : T1.IsTaintMemAddr = true) (h2 : T2.IsTaintMemAddr = true) :
    taintEq T1 T2 = true ↔ T1.GetTaintMemAddr = T2.GetTaintMemAddr := by
  simp [taintEq, h1, h2]

/-- Witness for `taintEq_resolved`: two resolved descriptors over different
registers (1 and 2) but the same address 42 compare equal. -/
theorem taintEq_resolved_witness :
    taintEq
      { Op := some (.reg 1), Offset := some 0, IsConcreteMemory := true,
        ConcreteMemoryAddress := 42 }
      { Op := some (.reg 2), Offset := some 8, IsConcreteMemory := true,
        ConcreteMemoryAddress := 42 } = true :=
  (taintEq_resolved
    { Op := some (.reg 1), Offset := some 0, IsConcreteMemory := true,
      ConcreteMemoryAddress := 42 }
    { Op := some (.reg 2), Offset := some 8, IsConcreteMemory := true,
      ConcreteMemoryAddress := 42 } rfl rfl).mpr rfl

/-- Claim C5: for a Taint Descriptor whose operand is present, resolution
is not attempted (the descriptor is returned unchanged) when the operand is
an immediate or there is no displacement; otherwise resolution succeeds
(the resolved flag is set) iff the base register's captured value string is
non-empty and the register's name is `rsp` or `rbp`, in which case the
resolved address is the value parsed as hexadecimal plus the signed
displacement (64-bit wrap); on failure the descriptor is marked
unresolved. -/
theorem calculateMemAddr_resolution (ctx : RegCtx) (Ti : TaintInfo) (op : Operand)
    (hop : Ti.Op = some op) :
    (op.isImm = true ∨ Ti.Offset = none → calculateMemAddr ctx Ti = Ti) ∧
    (∀ off : Int, op.isImm = false → Ti.Offset = some off →
      ((ctx.regValue (ctx.regName op.getReg) = "" ∨
          (ctx.regName op.getReg ≠ "rsp" ∧ ctx.regName op.getReg ≠ "rbp")) →
        (calculateMemAddr ctx Ti).IsTaintMemAddr = false) ∧
      ((ctx.regValue (ctx.regName op.getReg) ≠ "" ∧
          (ctx.regName op.getReg = "rsp" ∨ ctx.regName op.getReg = "rbp")) →
        (calculateMemAddr ctx Ti).IsTaintMemAddr = true ∧
        (calculateMemAddr ctx Ti).GetTaintMemAddr =
          addWrap64 (parseHex (ctx.regValue (ctx.regName op.getReg))) off)) := by
  constructor
  · intro h
    simp only [calculateMemAddr, hop]
    rw [if_pos h]
  · intro off him hoff
    have hcond : ¬(op.isImm = true ∨ Ti.Offset = none) := by simp [him, hoff]
    constructor
    · intro h
      simp only [calculateMemAddr, hop]
      rw [if_neg hcond, if_pos h]
      rfl
    · rintro ⟨hv, hn⟩
      have h2 : ¬(ctx.regValue (ctx.regName op.getReg) = "" ∨
          (ctx.regName op.getReg ≠ "rsp" ∧ ctx.regName op.getReg ≠ "rbp")) := by
        rintro (h | ⟨ha, hb⟩)
        · exact hv h
        · rcases hn with h' | h'
          · exact ha h'
          · exact hb h'
      simp only [calculateMemAddr, hop]
      rw [if_neg hcond, if_neg h2]
      refine ⟨rfl, ?_⟩
      simp [TaintInfo.GetTaintMemAddr, hoff]

/-- Witness for `calculateMemAddr_resolution`: under `ctxW` (base register
named `rsp`, captured value `1f`), the descriptor for register 5 with
displacement 4 resolves to address `0x1f + 4 = 35`. -/
theorem calculateMemAddr_resolution_witness :
    (calculateMemAddr ctxW { Op := some (.reg 5), Offset := some 4 }).IsTaintMemAddr = true ∧
    (calculateMemAddr ctxW { Op := some (.reg 5), Offset := some 4 }).GetTaintMemAddr =
      addWrap64 (parseHex "1f") 4 := by
  have h := ((calculateMemAddr_resolution ctxW
    { Op := some (.reg 5), Offset := some 4 } (.reg 5) rfl).2 4 rfl rfl).2
    (by constructor
        · intro hc
          exact absurd hc (by decide)
        · exact Or.inl rfl)
  exact h

/-- Claim C10: the propagation step dereferences the tuple's first source
operand unconditionally once the destination is found in the Taint Set: for
any tuple with a tainted destination and no first source operand, the step
is the undefined null-pointer-dereference path rather than Continue or a
graceful skip. -/
theorem propagateTaint_null_source (ctx : RegCtx) (DS : DestSourcePair)
    (TL : List TaintInfo) (hne : TL ≠ [])
    (hd : DS.Destination.isSome = true)
    (ht : (isTainted TL (mkTaintInfo ctx DS.Destination DS.DestOffset)).Op ≠ none)
    (hs : DS.Source = none) :
    propagateTaint ctx DS TL = .error .nullDeref := by
  have hE : TL.isEmpty = false := by
    cases TL with
    | nil => exact absurd rfl hne
    | cons a t => rfl
  obtain ⟨d, hd'⟩ := Option.isSome_iff_exists.mp hd
  rw [hd'] at ht
  obtain ⟨u, hu⟩ := Option.ne_none_iff_exists'.mp ht
  simp only [propagateTaint, hE, Bool.false_eq_true, if_false, hd', mkTaintInfo_Op]
  rw [hu]
  simp only [hs]

/-- Witness for `propagateTaint_null_source`: with register 2 tainted and
the tuple `dsNoSrc` (destination register 2, no first source), the step
faults. -/
theorem propagateTaint_null_source_witness :
    propagateTaint ctx0 dsNoSrc [tiReg2] = .error .nullDeref :=
  propagateTaint_null_source ctx0 dsNoSrc [tiReg2] (by decide) rfl
    (by decide) rfl

/-- Claim C2: the per-instruction propagation step.  `.ok (false, ·)` with
an empty input set is Terminate-Empty; `.ok (true, ·)` is Continue;
`.ok (false, ·)` with a tainted destination and an immediate first source
is Terminate-Found.  (1) Empty Taint Set: Terminate-Empty.  (2) No
destination operand: Continue, set unchanged.  (3) Destination not found
in the Taint Set: Continue, set unchanged.  (4) Destination found, first
source immediate: the matched destination entry is removed (one fewer
element) and the result is Terminate-Found.  (5) Destination found, first
source not immediate: the first source's Taint Descriptor is inserted and
the matched destination entry removed, leaving the size unchanged, and the
result is Continue. -/
theorem propagateTaint_transition (ctx : RegCtx) (DS : DestSourcePair)
    (TL : List TaintInfo) :
    (TL = [] → propagateTaint ctx DS TL = .ok (false, TL)) ∧
    (TL ≠ [] → DS.Destination = none →
      propagateTaint ctx DS TL = .ok (true, TL)) ∧
    (TL ≠ [] → DS.Destination.isSome = true →
      (isTainted TL (mkTaintInfo ctx DS.Destination DS.DestOffset)).Op = none →
      propagateTaint ctx DS TL = .ok (true, TL)) ∧
    (∀ src : Operand, TL ≠ [] → DS.Destination.isSome = true →
      (isTainted TL (mkTaintInfo ctx DS.Destination DS.DestOffset)).Op ≠ none →
      DS.Source = some src → src.isImm = true →
      ∃ TL2, removeFromTaintList (mkTaintInfo ctx DS.Destination DS.DestOffset) TL
          = .ok TL2 ∧
        propagateTaint ctx DS TL = .ok (false, TL2) ∧
        TL2.length + 1 = TL.length) ∧
    (∀ src : Operand, TL ≠ [] → DS.Destination.isSome = true →
      (isTainted TL (mkTaintInfo ctx DS.Destination DS.DestOffset)).Op ≠ none →
      DS.Source = some src → src.isImm = false →
      ∃ TL2, removeFromTaintList (mkTaintInfo ctx DS.Destination DS.DestOffset)
          (addToTaintList (mkTaintInfo ctx DS.Source DS.SrcOffset) TL) = .ok TL2 ∧
        propagateTaint ctx DS TL = .ok (true, TL2) ∧
        TL2.length = TL.length) := by
  have hEmpty : TL ≠ [] → TL.isEmpty = false := by
    intro hne
    cases TL with
    | nil => exact absurd rfl hne
    | cons a t => rfl
  refine ⟨?_, ?_, ?_, ?_, ?_⟩
  · intro h
    subst h
    rfl
  · intro hne hdest
    exact propagateTaint_no_dest ctx DS TL hne hdest
  · intro hne hd hfound
    obtain ⟨d, hd'⟩ := Option.isSome_iff_exists.mp hd
    rw [hd'] at hfound
    simp only [propagateTaint, hEmpty hne, Bool.false_eq_true, if_false,
      hd', mkTaintInfo_Op]
    rw [hfound]
  · intro src hne hd hfound hsrc him
    obtain ⟨d, hd'⟩ := Option.isSome_iff_exists.mp hd
    rw [hd'] at hfound ⊢
    obtain ⟨t, hfind, _⟩ := isTainted_found _ _ hfound
    obtain ⟨u, hu⟩ := Option.ne_none_iff_exists'.mp hfound
    obtain ⟨TL2, hrm, hlen⟩ := removeFromTaintList_of_find? _ t _ hfind
    refine ⟨TL2, hrm, ?_, hlen⟩
    simp only [propagateTaint, hEmpty hne, Bool.false_eq_true, if_false,
      hd', mkTaintInfo_Op]
    rw [hu]
    simp only [hsrc, him, if_true, hrm]
  · intro src hne hd hfound hsrc him
    obtain ⟨d, hd'⟩ := Option.isSome_iff_exists.mp hd
    rw [hd'] at hfound ⊢
    obtain ⟨t, hfind, _⟩ := isTainted_found _ _ hfound
    obtain ⟨u, hu⟩ := Option.ne_none_iff_exists'.mp hfound
    have hadd : addToTaintList (mkTaintInfo ctx DS.Source DS.SrcOffset) TL =
        TL ++ [mkTaintInfo ctx DS.Source DS.SrcOffset] := by
      rw [addToTaintList_eq]
      rw [if_pos (by simp [mkTaintInfo_Op, hsrc, opIsImm, him])]
    have hfind2 : (TL ++ [mkTaintInfo ctx DS.Source DS.SrcOffset]).find?
        (fun T => taintEq T (mkTaintInfo ctx (some d) DS.DestOffset)) = some t :=
      find?_append_of_some _ _ _ _ hfind
    obtain ⟨TL2, hrm, hlen⟩ := removeFromTaintList_of_find? _ t _ hfind2
    rw [hadd]
    refine ⟨TL2, hrm, ?_, ?_⟩
    · have hadd' := hadd
      rw [hsrc] at hadd'
      have hrm' := hrm
      rw [hsrc] at hrm'
      simp only [propagateTaint, hEmpty hne, Bool.false_eq_true, if_false,
        hd', mkTaintInfo_Op]
      rw [hu]
      simp only [hsrc, him, Bool.false_eq_true, if_false, hadd', hrm']
    · have : TL2.length + 1 = (TL ++ [mkTaintInfo ctx DS.Source DS.SrcOffset]).length :=
        hlen
      simpa using this

/-- Witness for `propagateTaint_transition` (branch 4): with register 2
tainted and the tuple `reg2 <- 0`, the step removes the matched entry and
terminates with the blame found. -/
theorem propagateTaint_transition_witness :
    ∃ TL2, removeFromTaintList (mkTaintInfo ctx0 dsA.Destination dsA.DestOffset)
        [tiReg2] = .ok TL2 ∧
      propagateTaint ctx0 dsA [tiReg2] = .ok (false, TL2) ∧
      TL2.length + 1 = [tiReg2].length :=
  (propagateTaint_transition ctx0 dsA [tiReg2]).2.2.2.1 (.imm 0)
    (by decide) rfl (by decide) rfl rfl

/-- Claim C6, counterexample: at a crash-flagged instruction with an empty
Taint Set and the tuple `dsAllImm`, the destination is present and carries
a displacement and the first source is present, so the claim predicts both
are seeded; the code's `addToTaintList` silently rejects immediate
operands, and the Taint Set stays empty. -/
theorem startTaint_immediate_cex :
    startTaint ctx0 dsAllImm [] = .ok [] ∧
    dsAllImm.Destination.isSome = true ∧ dsAllImm.DestOffset.isSome = true ∧
    dsAllImm.Source.isSome = true :=
  ⟨rfl, rfl, rfl, rfl⟩

/-- Claim C6, amended: with an empty Taint Set, the destination is seeded
iff it is present, carries a displacement and is not an immediate, and
each source operand is seeded iff it is present and not an immediate
(memory or plain register alike); with a non-empty Taint Set no seeding
occurs and the outcome on the Taint Set is that of the propagation step. -/
theorem startTaint_seeding (ctx : RegCtx) (DS : DestSourcePair) :
    (startTaint ctx DS [] = .ok (
      (if DS.Destination.isSome ∧ DS.DestOffset.isSome ∧ opIsImm DS.Destination = false
        then [mkTaintInfo ctx DS.Destination DS.DestOffset] else []) ++
      (if DS.Source.isSome ∧ opIsImm DS.Source = false
        then [mkTaintInfo ctx DS.Source DS.SrcOffset] else []) ++
      (if DS.Source2.isSome ∧ opIsImm DS.Source2 = false
        then [mkTaintInfo ctx DS.Source2 DS.Src2Offset] else []))) ∧
    (∀ TL : List TaintInfo, TL ≠ [] →
      startTaint ctx DS TL = Except.map Prod.snd (propagateTaint ctx DS TL)) := by
  constructor
  · simp only [startTaint, List.isEmpty_nil, if_true, mkTaintInfo_Op,
      mkTaintInfo_Offset, addToTaintList_eq]
    split_ifs <;> simp_all
  · intro TL hne
    have hE : TL.isEmpty = false := by
      cases TL with
      | nil => exact absurd rfl hne
      | cons a t => rfl
    simp only [startTaint, hE, Bool.false_eq_true, if_false, mkTaintInfo_Op]
    by_cases hd : DS.Destination.isSome
    · rw [if_pos hd]
      cases hp : propagateTaint ctx DS TL with
      | ok v =>
        obtain ⟨r, TL2⟩ := v
        simp [Except.map]
      | error e => simp [Except.map]
    · rw [if_neg hd]
      have hdest : DS.Destination = none := Option.not_isSome_iff_eq_none.mp hd
      rw [propagateTaint_no_dest ctx DS TL hne hdest]
      rfl

/-- Witness for `startTaint_seeding` (non-empty branch): with register 2
already tainted, the crash-flagged tuple `dsCrash2` is handed to the
propagation step instead of seeding. -/
theorem startTaint_seeding_witness :
    startTaint ctx0 dsCrash2 [tiReg2] =
      Except.map Prod.snd (propagateTaint ctx0 dsCrash2 [tiReg2]) :=
  (startTaint_seeding ctx0 dsCrash2).2 [tiReg2] (by decide)

/-- Claim C3, counterexample: in the two-block frame `MF0` the push/pop
boundary (`iPP`, in the later block) is reached right after the
crash-flagged instruction, before any instruction of the earlier block;
the claim predicts the whole frame's scan stops there, yet the processed
trace of the scan is `[7]`: instruction 7, which lies in the earlier block
(earlier in program order within the same frame), is still fed to the
propagation step after the boundary.  The `break` of the code only leaves
the current basic block's loop. -/
theorem pushPop_frame_cex :
    runOnBlameMF MF0 [] = .ok (false, [tiReg1], [7]) ∧
    MF0.blocks = [[iEarly], [iPP, iCrash]] ∧
    iPP.isPushPop = true ∧ iEarly.id = 7 ∧ iEarly.isPushPop = false :=
  ⟨rfl, rfl, rfl, rfl, rfl⟩

/-- Claim C3, amended: reaching an instruction classified as push/pop stops
the backward scan of the current basic block, regardless of the remaining
Taint Set contents and of the instructions behind it in that block: the
block's scan ends with the state unchanged, and the frame scan proceeds
with the next block earlier in program order (for a single-block frame this
stops the whole frame's scan). -/
theorem pushPop_stops_block (ctx : RegCtx) (st : ScanState) (MI : MachineInstr)
    (rest : List MachineInstr) (B : List MachineInstr)
    (Bs : List (List MachineInstr))
    (h1 : MI.crashStart = false) (h2 : st.crashSequenceStarted = true)
    (h3 : MI.isCall = false) (h4 : MI.isBranch = false)
    (h5 : MI.isPushPop = true) :
    scanInstrs ctx st (MI :: rest) = .ok (none, st) ∧
    (B.reverse = MI :: rest → scanBlocks ctx st (B :: Bs) = scanBlocks ctx st Bs) := by
  have hstep : scanInstr ctx st MI = .ok (.brk, st) := by
    simp only [scanInstr, h1, h2, h3, h4, h5, Bool.not_true, Bool.or_self,
      Bool.false_eq_true, if_false, if_true]
  have hinstrs : scanInstrs ctx st (MI :: rest) = .ok (none, st) := by
    simp only [scanInstrs, hstep]
  refine ⟨hinstrs, ?_⟩
  intro hrev
  simp only [scanBlocks, hrev, hinstrs]

/-- Witness for `pushPop_stops_block`: with register 1 still tainted
(non-empty Taint Set), the block scan stops at `iPP` and instruction 7
behind it in the same block is not processed. -/
theorem pushPop_stops_block_witness :
    scanInstrs ctx0 stC3 [iPP, iEarly] = .ok (none, stC3) ∧
    scanBlocks ctx0 stC3 ([[iEarly, iPP]] : List (List MachineInstr)) =
      scanBlocks ctx0 stC3 [] :=
  ⟨(pushPop_stops_block ctx0 stC3 iPP [iEarly] [iEarly, iPP] [] rfl rfl rfl rfl rfl).1,
   (pushPop_stops_block ctx0 stC3 iPP [iEarly] [iEarly, iPP] [] rfl rfl rfl rfl rfl).2 rfl⟩

/-- Claim C4, counterexample: in the single-block frame `MF1` the crash
instruction seeds two descriptors; the step at instruction 100
(`reg2 <- 0`) is Terminate-Found (middle conjunct), yet the scan's
processed trace is `[100, 101]` — instruction 101 of the same frame is
still processed, because the Taint Set is not yet empty — and in a
two-frame module a second frame `g` is still scanned after frame `f`
reported its Terminate-Found. -/
theorem terminateFound_continue_cex :
    runOnBlameMF MF1 [] = .ok (true, [tiReg1], [100, 101]) ∧
    propagateTaint ctx0 dsA [tiReg1, tiReg2] = .ok (false, [tiReg1]) ∧
    runOnBlameModule
      [{ Name := "f", MF := some MF1 }, { Name := "g", MF := some MFempty }] =
      .ok (true, [], ["f", "g"]) :=
  ⟨rfl, rfl, rfl⟩

/-- Claim C4, amended: when a propagation step returns Terminate-Found the
frame's result flag is set to success, and the scan stops immediately only
if the Taint Set is empty after the step (otherwise the scan continues);
likewise, a frame scan reporting success stops the module walk immediately
iff the Taint Set is then empty, and otherwise the walk continues into the
remaining frames with the overall result recorded as success. -/
theorem terminateFound_policy :
    (∀ (ctx : RegCtx) (st : ScanState) (MI : MachineInstr) (DS : DestSourcePair)
        (TL2 : List TaintInfo),
      MI.crashStart = false → st.crashSequenceStarted = true → MI.isCall = false →
      MI.isBranch = false → MI.isPushPop = false → MI.destSrc = some DS →
      propagateTaint ctx DS st.TL = .ok (false, TL2) →
      scanInstr ctx st MI = .ok
        ((if TL2.isEmpty then StepRes.ret true else StepRes.cont),
         { st with TL := TL2, result := true, trace := st.trace ++ [MI.id] })) ∧
    (∀ (result : Bool) (TL TL2 : List TaintInfo) (BF : BlameFunction)
        (rest : List BlameFunction) (MF : MachineFunction) (tr : List Nat),
      BF.MF = some MF → runOnBlameMF MF TL = .ok (true, TL2, tr) →
      (TL2 = [] → runOnBlameModuleAux true result TL (BF :: rest) =
        .ok (true, [], [BF.Name])) ∧
      (TL2 ≠ [] → runOnBlameModuleAux true result TL (BF :: rest) =
        match runOnBlameModuleAux true true TL2 rest with
        | .ok (b, sk, sc) => .ok (b, sk, BF.Name :: sc)
        | .error e => .error e)) := by
  constructor
  · intro ctx st MI DS TL2 h1 h2 h3 h4 h5 h6 hp
    simp only [scanInstr, h1, h2, h3, h4, h5, h6, hp, Bool.not_true,
      Bool.or_self, Bool.false_eq_true, if_false, Bool.not_false, Bool.true_and]
    cases hE : TL2.isEmpty <;> simp
  · intro result TL TL2 BF rest MF tr hMF hrun
    constructor
    · intro hTL2
      subst hTL2
      simp only [runOnBlameModuleAux, Bool.not_true, Bool.false_and,
        Bool.false_eq_true, if_false, hMF, hrun, List.isEmpty_nil, if_true]
    · intro hTL2
      have hE : TL2.isEmpty = false := by
        cases TL2 with
        | nil => exact absurd rfl hTL2
        | cons a t => rfl
      simp only [runOnBlameModuleAux, Bool.not_true, Bool.false_and,
        Bool.false_eq_true, if_false, hMF, hrun, hE, if_true]

/-- Witness for `terminateFound_policy`: the Terminate-Found step at
instruction 100 of `MF1` sets the result flag but continues the scan
(`StepRes.cont`), because `tiReg1` is still tainted. -/
theorem terminateFound_policy_witness :
    scanInstr ctx0 stC4 iA = .ok
      (StepRes.cont,
       { stC4 with TL := [tiReg1], result := true, trace := [100] }) := by
  have h := terminateFound_policy.1 ctx0 stC4 iA dsA [tiReg1]
    rfl rfl rfl rfl rfl rfl rfl
  simpa using h

theorem runOnBlameModuleAux_nil_inv (result b : Bool) (TL : List TaintInfo)
    (sk sc : List String)
    (h : runOnBlameModuleAux true result TL [] = .ok (b, sk, sc)) :
    sk = [] ∧ sc = [] := by
  simp only [runOnBlameModuleAux, Except.ok.injEq, Prod.mk.injEq] at h
  exact ⟨h.2.1.symm, h.2.2.symm⟩

theorem runOnBlameModuleAux_started_no_skip :
    ∀ (BM : List BlameFunction) (result : Bool) (TL : List TaintInfo)
      (b : Bool) (sk sc : List String),
      runOnBlameModuleAux true result TL BM = .ok (b, sk, sc) →
      sk = [] ∧ sc = (BM.map BlameFunction.Name).take sc.length := by
  intro BM
  induction BM with
  | nil =>
    intro result TL b sk sc h
    obtain ⟨h1, h2⟩ := runOnBlameModuleAux_nil_inv result b TL sk sc h
    subst h1
    subst h2
    simp
  | cons BF rest ih =>
    intro result TL b sk sc h
    simp only [runOnBlameModuleAux, Bool.not_true, Bool.false_and,
      Bool.false_eq_true, if_false] at h
    split at h
    · simp only [Except.ok.injEq, Prod.mk.injEq] at h
      obtain ⟨-, h2, h3⟩ := h
      subst h2
      subst h3
      simp
    · split at h
      · exact absurd h (by simp)
      · split at h
        · split at h
          · simp only [Except.ok.injEq, Prod.mk.injEq] at h
            obtain ⟨-, h2, h3⟩ := h
            subst h2
            subst h3
            simp
          · split at h
            · simp only [Except.ok.injEq, Prod.mk.injEq] at h
              obtain ⟨-, h2, h3⟩ := h
              subst h2
              subst h3
              rename_i b' sk' sc' heq
              obtain ⟨hsk, hsc⟩ := ih _ _ _ _ _ heq
              subst hsk
              refine ⟨rfl, ?_⟩
              simp only [List.map_cons, List.length_cons, List.take_succ_cons,
                List.cons.injEq, true_and]
              exact hsc
            · exact absurd h (by simp)
        · split at h
          · simp only [Except.ok.injEq, Prod.mk.injEq] at h
            obtain ⟨-, h2, h3⟩ := h
            subst h2
            subst h3
            rename_i b' sk' sc' heq
            obtain ⟨hsk, hsc⟩ := ih _ _ _ _ _ heq
            subst hsk
            refine ⟨rfl, ?_⟩
            simp only [List.map_cons, List.length_cons, List.take_succ_cons,
              List.cons.injEq, true_and]
            exact hsc
          · exact absurd h (by simp)

theorem runOnBlameModuleAux_false_skip :
    ∀ (BM : List BlameFunction) (result : Bool) (TL : List TaintInfo)
      (b : Bool) (sk sc : List String),
      runOnBlameModuleAux false result TL BM = .ok (b, sk, sc) →
      sk = (BM.takeWhile fun BF => startsWithUnderscore BF.Name).map
          BlameFunction.Name ∧
      sc = ((BM.dropWhile fun BF => startsWithUnderscore BF.Name).map
          BlameFunction.Name).take sc.length := by
  intro BM
  induction BM with
  | nil =>
    intro result TL b sk sc h
    simp only [runOnBlameModuleAux, Except.ok.injEq, Prod.mk.injEq] at h
    obtain ⟨-, h2, h3⟩ := h
    subst h2
    subst h3
    simp
  | cons BF rest ih =>
    intro result TL b sk sc h
    by_cases hP : startsWithUnderscore BF.Name
    · simp only [runOnBlameModuleAux, Bool.not_false, Bool.true_and, hP,
        if_true] at h
      split at h
      · simp only [Except.ok.injEq, Prod.mk.injEq] at h
        obtain ⟨-, h2, h3⟩ := h
        subst h2
        subst h3
        rename_i b' sk' sc' heq
        obtain ⟨hsk, hsc⟩ := ih _ _ _ _ _ heq
        subst hsk
        constructor
        · simp [List.takeWhile_cons, hP]
        · simpa [List.dropWhile_cons, hP] using hsc
      · exact absurd h (by simp)
    · have hsk0 : (List.takeWhile (fun BF => startsWithUnderscore BF.Name)
          (BF :: rest)) = [] := by
        simp [List.takeWhile_cons, hP]
      have hsc0 : (List.dropWhile (fun BF => startsWithUnderscore BF.Name)
          (BF :: rest)) = BF :: rest := by
        simp [List.dropWhile_cons, hP]
      rw [hsk0, hsc0]
      simp only [runOnBlameModuleAux, Bool.not_false, Bool.true_and, hP,
        Bool.false_eq_true, if_false] at h
      split at h
      · simp only [Except.ok.injEq, Prod.mk.injEq] at h
        obtain ⟨-, h2, h3⟩ := h
        subst h2
        subst h3
        simp
      · split at h
        · exact absurd h (by simp)
        · split at h
          · split at h
            · simp only [Except.ok.injEq, Prod.mk.injEq] at h
              obtain ⟨-, h2, h3⟩ := h
              subst h2
              subst h3
              simp
            · split at h
              · simp only [Except.ok.injEq, Prod.mk.injEq] at h
                obtain ⟨-, h2, h3⟩ := h
                subst h2
                subst h3
                rename_i b' sk' sc' heq
                obtain ⟨hsk, hsc⟩ := runOnBlameModuleAux_started_no_skip
                  _ _ _ _ _ _ heq
                subst hsk
                refine ⟨rfl, ?_⟩
                simp only [List.map_cons, List.length_cons,
                  List.take_succ_cons, List.cons.injEq, true_and]
                exact hsc
              · exact absurd h (by simp)
          · split at h
            · simp only [Except.ok.injEq, Prod.mk.injEq] at h
              obtain ⟨-, h2, h3⟩ := h
              subst h2
              subst h3
              rename_i b' sk' sc' heq
              obtain ⟨hsk, hsc⟩ := runOnBlameModuleAux_started_no_skip
                _ _ _ _ _ _ heq
              subst hsk
              refine ⟨rfl, ?_⟩
              simp only [List.map_cons, List.length_cons,
                List.take_succ_cons, List.cons.injEq, true_and]
              exact hsc
            · exact absurd h (by simp)

/-- Claim C8: the module walk skips exactly the leading contiguous frames
whose name begins with an underscore — the skipped-frame trace equals the
leading underscore-named segment, and the scanned-frame trace is an initial
segment of the remaining frames in order (a proper initial segment only
when the walk returns early for other reasons).  In the concrete module
`modC8` (`_start`, `__libc_start_main`, `main`, `_after`), both leading
frames are skipped, `main` is the first frame scanned, and the later
underscore-named frame `_after` is still scanned. -/
theorem moduleWalker_skips_leading_underscore :
    (∀ (BM : List BlameFunction) (b : Bool) (sk sc : List String),
      runOnBlameModule BM = .ok (b, sk, sc) →
      sk = (BM.takeWhile fun BF => startsWithUnderscore BF.Name).map
          BlameFunction.Name ∧
      sc = ((BM.dropWhile fun BF => startsWithUnderscore BF.Name).map
          BlameFunction.Name).take sc.length) ∧
    runOnBlameModule modC8 =
      .ok (false, ["_start", "__libc_start_main"], ["main", "_after"]) := by
  constructor
  · intro BM b sk sc h
    exact runOnBlameModuleAux_false_skip BM false [] b sk sc h
  · rfl

/-- Witness for `moduleWalker_skips_leading_underscore`: its universal part
applied to the concrete module `modC8`. -/
theorem moduleWalker_skips_leading_underscore_witness :
    (["_start", "__libc_start_main"] : List String) =
      (modC8.takeWhile fun BF => startsWithUnderscore BF.Name).map
        BlameFunction.Name ∧
    (["main", "_after"] : List String) =
      ((modC8.dropWhile fun BF => startsWithUnderscore BF.Name).map
        BlameFunction.Name).take 2 :=
  moduleWalker_skips_leading_underscore.1 modC8 false
    ["_start", "__libc_start_main"] ["main", "_after"] rfl

/-- Claim C9: when the module walk reaches a considered (non-skipped) frame
that has no lifted instruction stream, it returns at once — by a normal
`.ok` result, not a fault — carrying exactly the success flag accumulated
from the strictly earlier frames, and neither this frame nor any frame
after it is scanned (the scanned-frame trace contributed by this suffix is
empty, for every possible remainder of the module). -/
theorem moduleWalker_missing_frame (started result : Bool)
    (TL : List TaintInfo) (BF : BlameFunction) (rest : List BlameFunction)
    (hMF : BF.MF = none)
    (hns : started = true ∨ startsWithUnderscore BF.Name = false) :
    runOnBlameModuleAux started result TL (BF :: rest) = .ok (result, [], []) := by
  have hcond : (!started && startsWithUnderscore BF.Name) = false := by
    rcases hns with h | h <;> simp [h]
  simp only [runOnBlameModuleAux, hcond, Bool.false_eq_true, if_false, hMF]

/-- Witness for `moduleWalker_missing_frame`: a frame `g` without lifted
instructions ends the walk with the accumulated flag `true`; the later
frame `h`, although it has instructions, is never examined. -/
theorem moduleWalker_missing_frame_witness :
    runOnBlameModuleAux true true []
      [{ Name := "g", MF := none }, { Name := "h", MF := some MFempty }] =
      .ok (true, [], []) :=
  moduleWalker_missing_frame true true [] { Name := "g", MF := none }
    [{ Name := "h", MF := some MFempty }] rfl (Or.inl rfl)
